import Mathlib

/-!
# Verification of the document store, wallet ledger and order workflow

Shallow embedding of the persistence / ledger / order-handling core of the
repository (a Telegram balance-and-orders bot).  The repository contains two
variants of the same logic:

* `main.py` — the monolithic legacy variant (`DataManager`, `atomic_write`,
  `load_data`, `handle_approve_request`, `handle_reject_request`,
  `cancel_withdraw_callback`, `withdraw_confirm_callback`,
  `eshansy_create_account_handler`);
* the `bot/` package — the refactored variant
  (`bot/services/wallet.py`, `bot/services/orders.py`,
  `bot/handlers/admin.py`, `bot/handlers/user.py`).

Both variants are embedded below, each definition mirroring its source
function.  Numeric fields are embedded as `Int` (`main.py` stores balances as
Python floats, but every mutation in the repository is an exact
addition/subtraction of integral amounts, for which binary floating point and
integer arithmetic agree up to 2^53).
-/

namespace Sleman

/-! ## Wallet ledger — `bot/services/wallet.py`

The wallets document is a JSON object keyed by the decimal user id; Python
dicts preserve insertion order, and assignment to an existing key keeps its
position, so the document is embedded as an association list. -/

structure WalletRec where
  balance : Int
  hold : Int
deriving Repr, DecidableEq

abbrev WalletDoc := List (String × WalletRec)

/-- Source `wallet.get(uid, {"balance": 0, "hold": 0})` -/
def walletGetD (doc : WalletDoc) (uid : String) : WalletRec :=
  match doc.lookup uid with
  | some w => w
  | none => ⟨0, 0⟩

/-- Source `wallet[uid] = w` — assignment to an existing key keeps its position
(keys of a JSON object are unique); a fresh key is appended. -/
def walletSet : WalletDoc → String → WalletRec → WalletDoc
  | [], uid, w => [(uid, w)]
  | p :: rest, uid, w =>
    if p.1 = uid then (uid, w) :: rest else p :: walletSet rest uid w

/-- Source `ensure_wallet` (wallet.py 4-10): lazily creates `{"balance":0,"hold":0}`
for an unknown user and saves; returns the raw stored record. -/
def ensure_wallet (doc : WalletDoc) (uid : String) : WalletRec × WalletDoc :=
  match doc.lookup uid with
  | some w => (w, doc)
  | none => (⟨0, 0⟩, doc ++ [(uid, ⟨0, 0⟩)])

/-- Source `get_wallet` (wallet.py 12-16): clamps the returned copy at zero (the
clamped copy is not written back). -/
def get_wallet (doc : WalletDoc) (uid : String) : WalletRec × WalletDoc :=
  let r := ensure_wallet doc uid
  (⟨max 0 r.1.balance, max 0 r.1.hold⟩, r.2)

/-- Source `add_balance` (wallet.py 18-26): `balance = max(0, balance + amount)`,
`hold = max(0, hold)`. -/
def add_balance (doc : WalletDoc) (uid : String) (amount : Int) :
    WalletRec × WalletDoc :=
  let w := walletGetD doc uid
  let w' : WalletRec := ⟨max 0 (w.balance + amount), max 0 w.hold⟩
  (w', walletSet doc uid w')

/-- Source `reserve_withdraw` (wallet.py 28-47).  Returns the `(ok, wallet, reason)`
triple of the source together with the wallets document after the call. -/
def reserve_withdraw (doc : WalletDoc) (uid : String) (amount : Int) :
    (Bool × WalletRec × String) × WalletDoc :=
  if amount ≤ 0 then
    let r := get_wallet doc uid
    ((false, r.1, "amount_invalid"), r.2)
  else
    let w := walletGetD doc uid
    if w.balance < amount then
      ((false, ⟨w.balance, w.hold⟩, "insufficient"), doc)
    else
      let w' : WalletRec := ⟨max 0 (w.balance - amount), max 0 (w.hold + amount)⟩
      ((true, w', "ok"), walletSet doc uid w')

/-- Source `release_hold` (wallet.py 49-62): `hold = max(0, hold - amount)`,
`balance = max(0, balance + amount)`. -/
def release_hold (doc : WalletDoc) (uid : String) (amount : Int) :
    WalletRec × WalletDoc :=
  let w := walletGetD doc uid
  let w' : WalletRec := ⟨max 0 (w.balance + amount), max 0 (w.hold - amount)⟩
  (w', walletSet doc uid w')

/-- Source `finalize_withdraw` (wallet.py 64-76): `hold = max(0, hold - amount)`,
balance untouched (clamped copy). -/
def finalize_withdraw (doc : WalletDoc) (uid : String) (amount : Int) :
    WalletRec × WalletDoc :=
  let w := walletGetD doc uid
  let w' : WalletRec := ⟨max 0 w.balance, max 0 (w.hold - amount)⟩
  (w', walletSet doc uid w')

/-! ## Order workflow — `bot/services/orders.py`

String constants: `bot/handlers/admin.py` compares `order.get("status")`
against the literal `"pending"` directly (lines 220, 252), and the legacy
`main.py` uses the literals `"pending"`, `"approved"`, `"rejected"`,
`"cancelled"` for the same states; the `bot/utils/constants` module itself is
not part of the sources, so its constants are embedded with those literals
(only their distinctness matters to any claim). -/

def STATUS_PENDING : String := "pending"

def STATUS_APPROVED : String := "approved"

def STATUS_REJECTED : String := "rejected"

/-- Order payload (`data`): the dynamic per-type map, restricted to the keys
the repository actually stores (`amount`, `operation_no`, `receiver_no`,
`username`, `password`). -/
structure OrderData where
  amount : Option Int := none
  operation_no : Option String := none
  receiver_no : Option String := none
  username : Option String := none
  password : Option String := none
deriving Repr, DecidableEq

structure Order where
  id : Int
  otype : String
  status : String
  user_id : Int
  data : OrderData
  created_at : String
  updated_at : String
deriving Repr, DecidableEq

/-- The `orders` document: embedded next-id counter plus the order list. -/
structure OrdersDoc where
  next_id : Int
  orders : List Order
deriving Repr, DecidableEq

/-- A `patch` dict handed to `update_order`; the repository only ever patches
the `data` and `status` keys (`dict.update` semantics on those keys). -/
structure OrderPatch where
  data : Option OrderData := none
  status : Option String := none
deriving Repr, DecidableEq

def applyPatch (o : Order) (p : OrderPatch) : Order :=
  { o with data := p.data.getD o.data, status := p.status.getD o.status }

/-- Source `create_order` (orders.py 11-28): allocates `next_id`, appends a
`pending` order, bumps the counter.  `now` stands for `_now_iso()`. -/
def create_order (doc : OrdersDoc) (otype : String) (uid : Int)
    (data : OrderData) (now : String) : Order × OrdersDoc :=
  let order : Order := ⟨doc.next_id, otype, STATUS_PENDING, uid, data, now, now⟩
  (order, ⟨doc.next_id + 1, doc.orders ++ [order]⟩)

/-- Source `get_order` (orders.py 37-42): first order with matching id. -/
def get_order (doc : OrdersDoc) (oid : Int) : Option Order :=
  doc.orders.find? (fun o => o.id == oid)

/-- The loop body of `update_order` (orders.py 48-54): patch the first order
with matching id, refresh `updated_at`, leave the rest untouched. -/
def updateOrders (oid : Int) (p : OrderPatch) (now : String) :
    List Order → Option Order × List Order
  | [] => (none, [])
  | o :: rest =>
    if o.id = oid then
      let o' : Order := { applyPatch o p with updated_at := now }
      (some o', o' :: rest)
    else
      let r := updateOrders oid p now rest
      (r.1, o :: r.2)

/-- Source `update_order` (orders.py 44-58).  No status check of any kind: the patch
is applied to whatever order carries the id.  The document is saved only when
a matching order was found. -/
def update_order (doc : OrdersDoc) (oid : Int) (p : OrderPatch) (now : String) :
    Option Order × OrdersDoc :=
  let r := updateOrders oid p now doc.orders
  match r.1 with
  | some o => (some o, { doc with orders := r.2 })
  | none => (none, doc)

/-! ## Users document — `bot/services/users.py` (only the `ichancy` field an
order approval can touch). -/

structure UserRec where
  ichancy : Option (String × String) := none
deriving Repr, DecidableEq

abbrev UsersDoc := List (String × UserRec)

def usersSet : UsersDoc → String → UserRec → UsersDoc
  | [], uid, u => [(uid, u)]
  | p :: rest, uid, u =>
    if p.1 = uid then (uid, u) :: rest else p :: usersSet rest uid u

/-- Source `set_ichancy_account` (users.py 33-39): upserts the user and stores the
credential pair. -/
def set_ichancy_account (doc : UsersDoc) (uid : String)
    (username password : String) : UsersDoc :=
  usersSet doc uid ⟨some (username, password)⟩

/-! ## Validators — `bot/validators.py` -/

/-- Digits-only parse of a string of decimal digits. -/
def digitsToNat? : List Char → Option Nat
  | [] => none
  | cs =>
    if cs.all (fun c => c.isDigit) then
      some (cs.foldl (fun n c => n * 10 + (c.toNat - 48)) 0)
    else
      none

def isPySpace (c : Char) : Bool :=
  c == ' ' || c == '\t' || c == '\n' || c == '\r' ||
    c == Char.ofNat 11 || c == Char.ofNat 12

/-- Python `str.strip()`. -/
def pyStrip (s : List Char) : List Char :=
  ((s.dropWhile isPySpace).reverse.dropWhile isPySpace).reverse

/-- Source `parse_int` (validators.py 3-8): strip, drop thousands separators, then
Python `int(...)`; `None` on failure. -/
def parse_int (text : List Char) : Option Int :=
  let t := (pyStrip text).filter (fun c => c ≠ ',')
  match t with
  | '-' :: ds => (digitsToNat? ds).map (fun n => -(n : Int))
  | '+' :: ds => (digitsToNat? ds).map (fun n => (n : Int))
  | ds => (digitsToNat? ds).map (fun n => (n : Int))

/-- Source `safe_str` (validators.py 10-14): strip then truncate. -/
def safe_str (s : List Char) (maxLen : Nat) : List Char :=
  (pyStrip s).take maxLen

/-! ## Bot-package handlers — `bot/handlers/admin.py`, `bot/handlers/user.py`

The pieces of `context`/`storage` a handler touches are gathered in one
record; every handler is a function from that state (plus its message
inputs) to the new state and the reply it sends. -/

def ORDER_TOPUP : String := "topup"

def ORDER_WITHDRAW : String := "withdraw"

def ORDER_ICH_CREATE : String := "ich_create"

structure BotState where
  wallets : WalletDoc
  orders : OrdersDoc
  users : UsersDoc
deriving Repr, DecidableEq

inductive AdminReply
  | orderMissing      -- "الطلب غير موجود."
  | notPending        -- "هذا الطلب ليس معلقاً."
  | updated (status : String)
deriving Repr, DecidableEq

/-- Source `_approve_order` (admin.py 218-248), entered from
`admin_callback_router` (admin.py 154-167) which first re-reads the order:
guard on `status != "pending"`, per-type ledger/users side effect, then
`update_order(..., {"status": STATUS_APPROVED})`. -/
def approve_order (st : BotState) (oid : Int) (now : String) :
    BotState × AdminReply :=
  match get_order st.orders oid with
  | none => (st, .orderMissing)
  | some order =>
    if order.status ≠ STATUS_PENDING then (st, .notPending)
    else
      let uid := toString order.user_id
      let st' :=
        if order.otype = ORDER_TOPUP then
          { st with wallets := (add_balance st.wallets uid (order.data.amount.getD 0)).2 }
        else if order.otype = ORDER_WITHDRAW then
          { st with wallets := (finalize_withdraw st.wallets uid (order.data.amount.getD 0)).2 }
        else if order.otype = ORDER_ICH_CREATE then
          let un := (safe_str (order.data.username.getD "").toList 64).asString
          let pw := (safe_str (order.data.password.getD "").toList 128).asString
          { st with users := set_ichancy_account st.users uid un pw }
        else st
      let r := update_order st'.orders oid { status := some STATUS_APPROVED } now
      ({ st' with orders := r.2 }, .updated STATUS_APPROVED)

/-- Source `_reject_order` (admin.py 250-273): guard on `status != "pending"`,
release the hold for withdraw orders, then write `STATUS_REJECTED`. -/
def reject_order (st : BotState) (oid : Int) (now : String) :
    BotState × AdminReply :=
  match get_order st.orders oid with
  | none => (st, .orderMissing)
  | some order =>
    if order.status ≠ STATUS_PENDING then (st, .notPending)
    else
      let uid := toString order.user_id
      let st' :=
        if order.otype = ORDER_WITHDRAW then
          { st with wallets := (release_hold st.wallets uid (order.data.amount.getD 0)).2 }
        else st
      let r := update_order st'.orders oid { status := some STATUS_REJECTED } now
      ({ st' with orders := r.2 }, .updated STATUS_REJECTED)

inductive EditReply
  | ignored          -- no edit in progress / not admin
  | orderMissing
  | badFormat        -- re-ask
  | done
deriving Repr, DecidableEq

/-- Source `admin_message_listener_for_edits` (admin.py 173-216): if an edit is in
progress and the order exists, parse the message and call `update_order`
with a `{"data": ...}` patch.  The order's status is never consulted. -/
def admin_message_listener_for_edits (st : BotState)
    (edit_order_id : Option Int) (text : List Char) (now : String) :
    BotState × EditReply :=
  match edit_order_id with
  | none => (st, .ignored)
  | some oid =>
    match get_order st.orders oid with
    | none => (st, .orderMissing)
    | some order =>
      let t := pyStrip text
      if order.otype = ORDER_ICH_CREATE then
        -- `if "," not in text: badFormat` then `u, p = text.split(",", 1)`
        if t.contains ',' then
          let u := safe_str (t.takeWhile (fun c => c ≠ ',')) 64
          let p := safe_str ((t.dropWhile (fun c => c ≠ ',')).tail) 128
          if u.length < 3 ∨ p.length < 3 then (st, .badFormat)
          else
            let patch : OrderPatch :=
              { data := some { username := some u.asString, password := some p.asString } }
            let r := update_order st.orders oid patch now
            ({ st with orders := r.2 }, .done)
        else (st, .badFormat)
      else
        match parse_int t with
        | none => (st, .badFormat)
        | some amount =>
          if amount ≤ 0 then (st, .badFormat)
          else
            let patch : OrderPatch :=
              { data := some { order.data with amount := some amount } }
            let r := update_order st.orders oid patch now
            ({ st with orders := r.2 }, .done)

inductive WithdrawReply
  | badAmount        -- re-ask
  | insufficient     -- "رصيدك لا يكفي"
  | reserveError
  | created (oid : Int)
deriving Repr, DecidableEq

/-- Source `withdraw_get_amount` (user.py 158-202): parse the amount, call
`reserve_withdraw` FIRST, and only when the reservation succeeded create the
`pending` withdraw order. -/
def withdraw_get_amount (st : BotState) (uid : Int) (text : List Char)
    (min_withdraw : Int) (receiver : Option String) (now : String) :
    BotState × WithdrawReply :=
  match parse_int text with
  | none => (st, .badAmount)
  | some amount =>
    if amount < min_withdraw then (st, .badAmount)
    else
      let r := reserve_withdraw st.wallets (toString uid) amount
      let ok := r.1.1
      let reason := r.1.2.2
      if ok = false then
        if reason = "insufficient" then ({ st with wallets := r.2 }, .insufficient)
        else ({ st with wallets := r.2 }, .reserveError)
      else
        let st' : BotState := { st with wallets := r.2 }
        let co := create_order st'.orders ORDER_WITHDRAW uid
          { receiver_no := receiver, amount := some amount } now
        ({ st' with orders := co.2 }, .created co.1.id)

/-! ## Legacy variant — `main.py`

`main.py` keeps wallets inside the `users.json` records (`UserData.balance`,
`UserData.hold`) and orders inside `pending.json` keyed by a timestamp id.
Its approve / reject / cancel handlers and the withdraw-confirm flow are
embedded below. -/

structure UserMain where
  balance : Int
  hold : Int
  eshansy_balance : Int := 0
deriving Repr, DecidableEq

abbrev UsersMainDoc := List (String × UserMain)

def usersMainSet : UsersMainDoc → String → UserMain → UsersMainDoc
  | [], uid, u => [(uid, u)]
  | p :: rest, uid, u =>
    if p.1 = uid then (uid, u) :: rest else p :: usersMainSet rest uid u

/-- Source `PendingRequest` (main.py 139-174); `data` keys used by the ledger
handlers: `amount`, `hold_amount`, `points`, `amount_sy`. -/
structure PendingReq where
  user_id : String
  rtype : String
  amount : Int := 0
  points : Int := 0
  amount_sy : Int := 0
  status : String
deriving Repr, DecidableEq

abbrev PendingDoc := List (String × PendingReq)

def pendingSet : PendingDoc → String → PendingReq → PendingDoc
  | [], rid, r => [(rid, r)]
  | p :: rest, rid, r =>
    if p.1 = rid then (rid, r) :: rest else p :: pendingSet rest rid r

structure MainState where
  users : UsersMainDoc
  pending : PendingDoc
deriving Repr, DecidableEq

inductive MainReply
  | notPending       -- "الطلب غير موجود أو تم معالجته بالفعل."
  | raised           -- unhandled exception escaped the handler
  | done
deriving Repr, DecidableEq

/-- Source `handle_approve_request` (main.py 1784-1875).  Note the `withdraw`
branch (1813-1816): it does nothing to the wallet — the hold is left as is
and only the request status changes. -/
def handle_approve_request (st : MainState) (request_id : String)
    (_admin_id : String) : MainState × MainReply :=
  match st.pending.lookup request_id with
  | none => (st, .notPending)
  | some req =>
    if req.status ≠ "pending" then (st, .notPending)
    else
      match st.users.lookup req.user_id with
      | none => (st, .raised)   -- `user.balance` on `None` raises
      | some user =>
        let users' :=
          if req.rtype = "topup" then
            usersMainSet st.users req.user_id
              { user with balance := user.balance + req.amount }
          else if req.rtype = "withdraw" then
            st.users        -- "Keep hold amount as is"; no wallet change
          else if req.rtype = "eshansy_topup" then
            st.users        -- already processed at creation
          else if req.rtype = "eshansy_withdraw" then
            if req.points ≤ user.eshansy_balance then
              usersMainSet st.users req.user_id
                { user with eshansy_balance := user.eshansy_balance - req.points,
                            balance := user.balance + req.amount_sy }
            else st.users
          else st.users
        let req' := { req with status := "approved" }
        (⟨users', pendingSet st.pending request_id req'⟩, .done)

/-- Source `handle_reject_request` (main.py 1877-1949).  The `withdraw` branch
(1887-1891) returns the held amount with `user.balance += amount;
user.hold -= amount` — no clamping at zero anywhere. -/
def handle_reject_request (st : MainState) (request_id : String)
    (_admin_id : String) : MainState × MainReply :=
  match st.pending.lookup request_id with
  | none => (st, .notPending)
  | some req =>
    if req.status ≠ "pending" then (st, .notPending)
    else
      match st.users.lookup req.user_id with
      | none => (st, .raised)
      | some user =>
        let users' :=
          if req.rtype = "withdraw" then
            usersMainSet st.users req.user_id
              { user with balance := user.balance + req.amount,
                          hold := user.hold - req.amount }
          else st.users
        let req' := { req with status := "rejected" }
        (⟨users', pendingSet st.pending request_id req'⟩, .done)

/-- Source `cancel_withdraw_callback` (main.py 1466-1518), `cancel_req_` branch:
guard `not request or request.status != "pending" or request.type !=
"withdraw"`, then `balance += amount; hold -= amount` (again no clamp) and
status `"cancelled"`. -/
def cancel_withdraw_callback (st : MainState) (request_id : String)
    (_actor_id : String) : MainState × MainReply :=
  match st.pending.lookup request_id with
  | none => (st, .notPending)
  | some req =>
    if req.status ≠ "pending" ∨ req.rtype ≠ "withdraw" then (st, .notPending)
    else
      match st.users.lookup req.user_id with
      | none => (st, .raised)
      | some user =>
        let user' := { user with balance := user.balance + req.amount,
                                 hold := user.hold - req.amount }
        let req' := { req with status := "cancelled" }
        (⟨usersMainSet st.users req.user_id user',
          pendingSet st.pending request_id req'⟩, .done)

/-- Source `withdraw_confirm_callback` (main.py 1340-1406), `confirm_withdraw`
branch: re-check `amount > balance - hold`; on success `balance -= amount;
hold += amount` and append the `pending` request. -/
def withdraw_confirm_callback (st : MainState) (uid : String) (amount : Int)
    (request_id : String) : MainState × Bool :=
  match st.users.lookup uid with
  | none => (st, false)
  | some user =>
    if user.balance - user.hold < amount then (st, false)
    else
      let user' := { user with balance := user.balance - amount,
                               hold := user.hold + amount }
      let req : PendingReq :=
        ⟨uid, "withdraw", amount, 0, 0, "pending"⟩
      (⟨usersMainSet st.users uid user',
        pendingSet st.pending request_id req⟩, true)

/-! ## Document store concurrency — `main.py` `load_data` / `atomic_write` /
`DataManager.save_user`

`file_locks[path]` is an `asyncio.Lock` that `load_data` (main.py 193-210)
acquires for the duration of one read and `atomic_write` (main.py 177-191)
acquires for the duration of one write.  `DataManager.save_user`
(main.py 224-228) performs `load_data` → mutate in memory → `save_data`,
RE-acquiring the lock for each half: no lock is held across the whole
read-modify-write cycle.  The semantics below makes each load and each store
one atomic step (exactly what the per-step lock guarantees) and lets steps of
different tasks interleave (exactly what releasing the lock in between
allows). -/

/-- One step of a read-modify-write task: task `i` either loads the current
document into its local snapshot or stores back `fs i` applied to the
snapshot it previously loaded. -/
inductive RmwStep
  | load (i : Nat)
  | store (i : Nat)
deriving Repr, DecidableEq

structure RmwState where
  doc : Int
  regs : Nat → Option Int

def runStep (fs : List (Int → Int)) (s : RmwState) : RmwStep → RmwState
  | .load i => { s with regs := fun j => if j = i then some s.doc else s.regs j }
  | .store i =>
    match s.regs i with
    | some v =>
      { s with doc := (fs.getD i id) v,
               regs := fun j => if j = i then none else s.regs j }
    | none => s

def runSchedule (fs : List (Int → Int)) (sched : List RmwStep) (init : Int) : Int :=
  (sched.foldl (runStep fs) ⟨init, fun _ => none⟩).doc

/-- A schedule is lock-legal for `n` tasks when every task performs exactly
one load and one store, in that order; the per-file `asyncio.Lock` imposes no
further constraint because it is released between the two. -/
def scheduleWF (n : Nat) (sched : List RmwStep) : Bool :=
  (List.range n).all (fun i =>
    sched.count (RmwStep.load i) == 1 && sched.count (RmwStep.store i) == 1 &&
      decide (sched.indexOf (RmwStep.load i) < sched.indexOf (RmwStep.store i)))

/-- A fully serial execution: each task's load is immediately followed by its
store, tasks running one after the other in the order given. -/
def serialSchedule (order : List Nat) : List RmwStep :=
  order.flatMap (fun i => [.load i, .store i])

/-- Result of running the tasks serially in the given order. -/
def runSerial (fs : List (Int → Int)) (order : List Nat) (init : Int) : Int :=
  order.foldl (fun d i => (fs.getD i id) d) init

/-- Two concurrent balance mutations (`+10` and `+5`), as in
`DataManager.save_user` racing with itself on the users document. -/
def twoIncOps : List (Int → Int) := [fun d => d + 10, fun d => d + 5]

/-- Both tasks load before either stores — a schedule the per-call lock of
`load_data`/`atomic_write` fully permits. -/
def lostUpdateSchedule : List RmwStep := [.load 0, .load 1, .store 0, .store 1]

/-! ## Crash-safe write — `atomic_write` (main.py 177-191) -/

/-- A file path, as `pathlib.Path` sees it: directory, stem and suffix.
`with_suffix('.tmp')` swaps only the suffix, staying in the same directory. -/
structure StorePath where
  dir : String
  stem : String
  suffix : String
deriving Repr, DecidableEq

def withSuffix (p : StorePath) (s : String) : StorePath :=
  { p with suffix := s }

/-- The observable file-system actions `atomic_write` can perform. -/
inductive FsAction
  | writeFile (p : StorePath) (content : String)  -- open(… ,'w') + write + close
  | fsyncFile (p : StorePath)                      -- flush to stable storage
  | replaceFile (src dst : StorePath)              -- aiofiles.os.replace (atomic rename)
deriving Repr, DecidableEq

/-- The body of `atomic_write` (main.py 184-191), as the exact sequence of
file-system actions it performs while holding the lock: write the serialized
value to `file_path.with_suffix('.tmp')`, then atomically rename it over the
destination.  There is no flush/fsync call anywhere in the function. -/
def atomic_write (file_path : StorePath) (data : String) : List FsAction :=
  let temp_file := withSuffix file_path ".tmp"
  [ .writeFile temp_file data, .replaceFile temp_file file_path ]

def isSyncAction : FsAction → Bool
  | .fsyncFile _ => true
  | _ => false

/-- Does the trace ever open the given path for in-place writing? -/
def writesInPlace (acts : List FsAction) (p : StorePath) : Bool :=
  acts.any (fun a => match a with
    | .writeFile q _ => q = p
    | _ => false)

/-! ## Corrupt-record handling — `load_data` (main.py 193-210)

The on-disk state of one key is the optional file content plus an optional
quarantine copy (the location the claim says a corrupt record is renamed
to).  `load_data` is parameterized by the JSON parser; `json.loads` raises
`JSONDecodeError` on garbage, and `load_data` installs no handler for it. -/

inductive LoadOutcome (α : Type)
  | ok (v : α)
  | raised
deriving Repr, DecidableEq

structure KeyState where
  file : Option String
  quarantine : Option String
deriving Repr, DecidableEq

/-- Source `load_data` (main.py 193-210): absent file → default; empty content →
default; otherwise `json.loads(content)`, whose parse failure propagates as
an exception.  The function performs no write, rename or quarantine of any
kind, so the key's on-disk state is returned unchanged in every branch. -/
def load_data {α : Type} (parse : String → Option α) (default : α)
    (ks : KeyState) : LoadOutcome α × KeyState :=
  match ks.file with
  | none => (.ok default, ks)
  | some content =>
    if content = "" then (.ok default, ks)
    else
      match parse content with
      | some v => (.ok v, ks)
      | none => (.raised, ks)

/-! ## Credential inventory fuzzy match — `eshansy_create_account_handler`
(main.py 606-652)

The matcher normalizes the requested name with `.strip().lower()`, filters
the accounts dict down to unassigned entries, and scans them with
`difflib.SequenceMatcher(None, suggested, username).ratio()`, keeping the
first strict improvement over a running best that starts at `0`.

`SequenceMatcher.ratio()` is `2*M/T` where `T` is the total length and `M`
the total size of the matching blocks; with strings this short no autojunk
applies.  `find_longest_match` returns the longest common block, ties broken
by the earliest start in `a`, then the earliest start in `b`; the matching
blocks are that block plus, recursively, the blocks of the two flanking
regions.  The ratio is embedded as the exact fraction `2*M / T`, kept as an
unreduced numerator/denominator pair and compared by cross-multiplication
(Python computes the same quantity in binary floating point; every
comparison a claim below evaluates is far from any rounding boundary). -/

/-- Length of the longest common prefix. -/
def cpl : List Char → List Char → Nat
  | a :: as, b :: bs => if a = b then cpl as bs + 1 else 0
  | _, _ => 0

structure MatchBlock where
  i : Nat
  j : Nat
  k : Nat
deriving Repr, DecidableEq

/-- Source `find_longest_match` over whole strings: maximal `k` with
`a[i:i+k] == b[j:j+k]`, preferring the smallest `i`, then the smallest `j`
(scan order is lexicographic in `(i, j)` and only strict improvements are
kept, which realizes exactly that tie-break). -/
def find_longest_match (a b : List Char) : MatchBlock :=
  (List.range a.length).foldl (fun best i =>
    (List.range b.length).foldl (fun best j =>
      let k := cpl (a.drop i) (b.drop j)
      if k > best.k then ⟨i, j, k⟩ else best) best) ⟨0, 0, 0⟩

/-- Total size of all matching blocks (`sum(triple[-1] for triple in
get_matching_blocks())`), by the textbook recursion on the two flanking
regions; `fuel` bounds the recursion depth and `length a + 1` is always
enough since each sub-region is strictly shorter. -/
def matchTotal : Nat → List Char → List Char → Nat
  | 0, _, _ => 0
  | fuel + 1, a, b =>
    let blk := find_longest_match a b
    if blk.k = 0 then 0
    else
      matchTotal fuel (a.take blk.i) (b.take blk.j) + blk.k +
        matchTotal fuel (a.drop (blk.i + blk.k)) (b.drop (blk.j + blk.k))

/-- An exact similarity value `num / den` (unreduced). -/
structure RatioVal where
  num : Nat
  den : Nat
deriving Repr, DecidableEq

/-- Strict order on similarity values by cross-multiplication (denominators
are always positive here). -/
def ratioLt (x y : RatioVal) : Prop := x.num * y.den < y.num * x.den

instance (x y : RatioVal) : Decidable (ratioLt x y) := by
  unfold ratioLt
  infer_instance

/-- Non-strict order on similarity values by cross-multiplication. -/
def ratioLe (x y : RatioVal) : Prop := x.num * y.den ≤ y.num * x.den

instance (x y : RatioVal) : Decidable (ratioLe x y) := by
  unfold ratioLe
  infer_instance

/-- The loop's starting `best_ratio = 0`. -/
def ratioZero : RatioVal := ⟨0, 1⟩

/-- Source `SequenceMatcher(None, a, b).ratio()` as the exact fraction `2*M / T`
(difflib returns `1.0` when both strings are empty). -/
def smRatioOf (a b : List Char) : RatioVal :=
  let T := a.length + b.length
  if T = 0 then ⟨1, 1⟩
  else ⟨2 * matchTotal (a.length + 1) a b, T⟩

/-- Python `str.lower()` (the usernames involved are ASCII). -/
def pyLower (s : List Char) : List Char := s.map Char.toLower

/-- The body of the scan loop of main.py 625-629: keep `(best_match,
best_ratio)` unless the candidate's ratio is a strict improvement. -/
def bestStep (suggested : List Char) (best : Option (List Char) × RatioVal)
    (username : List Char) : Option (List Char) × RatioVal :=
  let r := smRatioOf suggested username
  if ratioLt best.2 r then (some username, r) else best

/-- The scan loop of main.py 621-629: running `(best_match, best_ratio)`
starting at `(None, 0)`. -/
def findBestLoop (suggested : List Char) (pool : List (List Char)) :
    Option (List Char) × RatioVal :=
  pool.foldl (bestStep suggested) (none, ratioZero)

/-- The accounts dict: username → `assigned_to` (the only field the matcher
reads; `if not acc.assigned_to` treats `None` as unassigned).  Dict order is
insertion order. -/
abbrev AccountsDoc := List (List Char × Option Nat)

def availableUsernames (accounts : AccountsDoc) : List (List Char) :=
  (accounts.filter (fun p => p.2.isNone)).map Prod.fst

/-- Source `eshansy_create_account_handler` (main.py 606-652), reduced to the value
it suggests: `None` both when the available pool is empty (early return) and
when the scan found no `best_match`. -/
def eshansy_best_match (text : List Char) (accounts : AccountsDoc) :
    Option (List Char) :=
  let suggested := pyLower (pyStrip text)
  let available := availableUsernames accounts
  if available.isEmpty then none
  else (findBestLoop suggested available).1

/-- Modelled from the spec: the `findBestMatch` contract of §4.3 with the
fixed similarity threshold of §9 (`treat ≥ 0.55 normalized similarity as a
candidate`) — the comparison point for the refinement claim C9.  It returns
the first stored available username whose similarity to the normalized input
is maximal, provided that similarity clears the `0.55 = 11/20` threshold. -/
def specBestMatch (text : List Char) (accounts : AccountsDoc) :
    Option (List Char) :=
  let suggested := pyLower (pyStrip text)
  let available := availableUsernames accounts
  match (findBestLoop suggested available).1 with
  | none => none
  | some u =>
    if ratioLe ⟨11, 20⟩ (smRatioOf suggested u) then some u else none

/-- The wallet-invariant of the specification: every user's stored balance
and hold are non-negative. -/
def walletNN (doc : WalletDoc) : Prop :=
  ∀ uid, 0 ≤ (walletGetD doc uid).balance ∧ 0 ≤ (walletGetD doc uid).hold

/-! # Theorems -/

theorem lookup_walletSet_self (doc : WalletDoc) (uid : String) (w : WalletRec) :
    (walletSet doc uid w).lookup uid = some w := by
  induction doc with
  | nil => simp [walletSet, List.lookup]
  | cons p rest ih =>
    by_cases hp : p.1 = uid
    · simp [walletSet, hp, List.lookup]
    · have huid : (uid == p.1) = false := by
        simp [beq_iff_eq]; exact fun h => hp h.symm
      simp [walletSet, hp, List.lookup, huid, ih]

theorem lookup_walletSet_other (doc : WalletDoc) (uid v : String) (w : WalletRec)
    (hne : v ≠ uid) : (walletSet doc uid w).lookup v = doc.lookup v := by
  induction doc with
  | nil =>
    have hv : (v == uid) = false := by simp [beq_iff_eq, hne]
    simp [walletSet, List.lookup, hv]
  | cons p rest ih =>
    by_cases hp : p.1 = uid
    · have hv : (v == uid) = false := by simp [beq_iff_eq, hne]
      have hv' : (v == p.1) = false := by rw [hp]; exact hv
      simp [walletSet, hp, List.lookup, hv, hv']
    · simp only [walletSet, hp, if_false, List.lookup]
      cases hvp : v == p.1 <;> simp [ih]

theorem walletGetD_walletSet_self (doc : WalletDoc) (uid : String) (w : WalletRec) :
    walletGetD (walletSet doc uid w) uid = w := by
  simp [walletGetD, lookup_walletSet_self]

theorem walletGetD_walletSet_other (doc : WalletDoc) (uid v : String)
    (w : WalletRec) (hne : v ≠ uid) :
    walletGetD (walletSet doc uid w) v = walletGetD doc v := by
  unfold walletGetD
  rw [lookup_walletSet_other doc uid v w hne]

theorem lookup_append_single_none (doc : WalletDoc) (uid : String)
    (w : WalletRec) (h : doc.lookup uid = none) :
    (doc ++ [(uid, w)]).lookup uid = some w := by
  induction doc with
  | nil => simp [List.lookup]
  | cons p rest ih =>
    cases hb : (uid == p.1) with
    | true => simp [List.lookup, hb] at h
    | false =>
      simp only [List.lookup, hb] at h
      simp only [List.cons_append, List.lookup, hb]
      exact ih h

theorem lookup_append_single_other (doc : WalletDoc) (uid v : String)
    (w : WalletRec) (hv : v ≠ uid) :
    (doc ++ [(uid, w)]).lookup v = doc.lookup v := by
  induction doc with
  | nil =>
    have : (v == uid) = false := by simp [beq_iff_eq, hv]
    simp [List.lookup, this]
  | cons p rest ih =>
    simp only [List.cons_append, List.lookup]
    cases v == p.1 <;> simp [ih]

theorem walletGetD_ensure (doc : WalletDoc) (uid : String) :
    walletGetD (ensure_wallet doc uid).2 uid = walletGetD doc uid := by
  unfold ensure_wallet walletGetD
  cases hl : doc.lookup uid with
  | some w => simp [hl]
  | none => simp [hl, lookup_append_single_none doc uid ⟨0, 0⟩ hl]

theorem walletNN_walletSet (doc : WalletDoc) (uid : String) (w : WalletRec)
    (hd : walletNN doc) (hw : 0 ≤ w.balance ∧ 0 ≤ w.hold) :
    walletNN (walletSet doc uid w) := by
  intro v
  by_cases hv : v = uid
  · subst hv
    rw [walletGetD_walletSet_self]
    exact hw
  · rw [walletGetD_walletSet_other doc uid v w hv]
    exact hd v

theorem walletNN_ensure (doc : WalletDoc) (uid : String) (hd : walletNN doc) :
    walletNN (ensure_wallet doc uid).2 := by
  unfold ensure_wallet
  cases hl : doc.lookup uid with
  | some w => simpa [hl] using hd
  | none =>
    simp only [hl]
    intro v
    by_cases hv : v = uid
    · subst hv
      simp [walletGetD, lookup_append_single_none doc v ⟨0, 0⟩ hl]
    · unfold walletGetD
      rw [lookup_append_single_other doc uid v ⟨0, 0⟩ hv]
      exact hd v

/-- Claim C5: For every wallet state with `balance = b ≥ 0` and `hold = h ≥ 0`,
and every amount `0 ≤ a ≤ b`, performing `reserve_withdraw(u, a)` immediately
followed by `release_hold(u, a)` restores the wallet to exactly the prior
`(balance, hold)` pair (wallet.py 28-62). -/
theorem C5_reserve_release_roundtrip (doc : WalletDoc) (uid : String)
    (b h a : Int) (hw : walletGetD doc uid = ⟨b, h⟩) (hb : 0 ≤ b) (hh : 0 ≤ h)
    (ha0 : 0 ≤ a) (hab : a ≤ b) :
    (release_hold (reserve_withdraw doc uid a).2 uid a).1 = ⟨b, h⟩ := by
  by_cases ha : a ≤ 0
  · have ha' : a = 0 := le_antisymm ha ha0
    subst ha'
    have h2 : (reserve_withdraw doc uid 0).2 = (ensure_wallet doc uid).2 := by
      simp [reserve_withdraw, get_wallet]
    have h3 : walletGetD (ensure_wallet doc uid).2 uid = ⟨b, h⟩ := by
      rw [walletGetD_ensure, hw]
    rw [h2]
    simp only [release_hold, h3]
    simp [WalletRec.mk.injEq]
    omega
  · push_neg at ha
    have hnb : ¬ b < a := not_lt.mpr hab
    have h2 : (reserve_withdraw doc uid a).2
        = walletSet doc uid ⟨max 0 (b - a), max 0 (h + a)⟩ := by
      simp [reserve_withdraw, not_le.mpr ha, hw, hnb]
    rw [h2]
    simp only [release_hold, walletGetD_walletSet_self]
    simp [WalletRec.mk.injEq]
    omega

/-- Claim C4, amended, services variant: `reserve_withdraw(u, a)` followed by
the approval settlement `finalize_withdraw(u, a)` (what `_approve_order`
calls for a `WITHDRAW` order, admin.py 232-234) leaves `hold` at its
pre-reserve value and `balance` reduced by `a`; both stay non-negative. -/
theorem C4_reserve_then_finalize (doc : WalletDoc) (uid : String)
    (b h a : Int) (hw : walletGetD doc uid = ⟨b, h⟩) (hb : 0 ≤ b) (hh : 0 ≤ h)
    (ha0 : 0 < a) (hab : a ≤ b) :
    (finalize_withdraw (reserve_withdraw doc uid a).2 uid a).1 = ⟨b - a, h⟩ ∧
      0 ≤ b - a ∧ 0 ≤ h := by
  have hnb : ¬ b < a := not_lt.mpr hab
  have h2 : (reserve_withdraw doc uid a).2
      = walletSet doc uid ⟨max 0 (b - a), max 0 (h + a)⟩ := by
    simp [reserve_withdraw, not_le.mpr ha0, hw, hnb]
  refine ⟨?_, by omega, hh⟩
  rw [h2]
  simp only [finalize_withdraw, walletGetD_walletSet_self]
  simp [WalletRec.mk.injEq]
  omega

/-- Witness for C5: a wallet `(100, 20)` is restored exactly after
reserving and releasing 30. -/
theorem C5_reserve_release_roundtrip_witness :
    (release_hold (reserve_withdraw [("7", ⟨100, 20⟩)] "7" 30).2 "7" 30).1
      = ⟨100, 20⟩ :=
  C5_reserve_release_roundtrip [("7", ⟨100, 20⟩)] "7" 100 20 30
    (by decide) (by decide) (by decide) (by decide) (by decide)

/-- Witness for C4's amended theorem: reserving then settling 40 out of 100
leaves the hold at its original 0 and the balance at 60. -/
theorem C4_reserve_then_finalize_witness :
    (finalize_withdraw (reserve_withdraw [("7", ⟨100, 0⟩)] "7" 40).2 "7" 40).1
        = ⟨100 - 40, 0⟩ ∧ 0 ≤ (100 : Int) - 40 ∧ (0 : Int) ≤ 0 :=
  C4_reserve_then_finalize [("7", ⟨100, 0⟩)] "7" 100 0 40
    (by decide) (by decide) (by decide) (by decide) (by decide)

/-- Claim C4, counterexample, legacy variant: In `main.py` the approval of a
withdraw request performs no wallet mutation at all (main.py 1813-1816):
starting from `{balance: 100, hold: 0}`, confirming a withdraw of 50
reserves to `{50, 50}`, and approving the request leaves `{50, 50}` — the
hold is NOT decreased back to its pre-reserve value 0 as the claim states. -/
theorem C4_counterexample :
    (withdraw_confirm_callback ⟨[("7", ⟨100, 0, 0⟩)], []⟩ "7" 50 "r1").1.users.lookup "7"
        = some ⟨50, 50, 0⟩ ∧
    (handle_approve_request
        (withdraw_confirm_callback ⟨[("7", ⟨100, 0, 0⟩)], []⟩ "7" 50 "r1").1
        "r1" "9").1.users.lookup "7" = some ⟨50, 50, 0⟩ ∧
    (some (⟨50, 50, 0⟩ : UserMain) ≠ some ⟨50, 0, 0⟩) := by
  refine ⟨by decide, by decide, by decide⟩

theorem walletNN_add_balance (doc : WalletDoc) (uid : String) (amount : Int)
    (hd : walletNN doc) : walletNN (add_balance doc uid amount).2 := by
  unfold add_balance
  exact walletNN_walletSet _ _ _ hd ⟨le_max_left 0 _, le_max_left 0 _⟩

theorem walletNN_reserve_withdraw (doc : WalletDoc) (uid : String) (amount : Int)
    (hd : walletNN doc) : walletNN (reserve_withdraw doc uid amount).2 := by
  unfold reserve_withdraw get_wallet
  by_cases h1 : amount ≤ 0
  · simp only [if_pos h1]
    exact walletNN_ensure doc uid hd
  · simp only [if_neg h1]
    by_cases h2 : (walletGetD doc uid).balance < amount
    · simp only [if_pos h2]
      exact hd
    · simp only [if_neg h2]
      exact walletNN_walletSet _ _ _ hd ⟨le_max_left 0 _, le_max_left 0 _⟩

theorem walletNN_release_hold (doc : WalletDoc) (uid : String) (amount : Int)
    (hd : walletNN doc) : walletNN (release_hold doc uid amount).2 := by
  unfold release_hold
  exact walletNN_walletSet _ _ _ hd ⟨le_max_left 0 _, le_max_left 0 _⟩

theorem walletNN_finalize_withdraw (doc : WalletDoc) (uid : String) (amount : Int)
    (hd : walletNN doc) : walletNN (finalize_withdraw doc uid amount).2 := by
  unfold finalize_withdraw
  exact walletNN_walletSet _ _ _ hd ⟨le_max_left 0 _, le_max_left 0 _⟩

theorem walletNN_approve_order (st : BotState) (oid : Int) (now : String)
    (hd : walletNN st.wallets) : walletNN (approve_order st oid now).1.wallets := by
  unfold approve_order
  cases hg : get_order st.orders oid with
  | none => exact hd
  | some o =>
    by_cases hs : o.status ≠ STATUS_PENDING
    · simp only [if_pos hs]
      exact hd
    · simp only [if_neg hs]
      by_cases h1 : o.otype = ORDER_TOPUP
      · simp only [if_pos h1]
        exact walletNN_add_balance _ _ _ hd
      · simp only [if_neg h1]
        by_cases h2 : o.otype = ORDER_WITHDRAW
        · simp only [if_pos h2]
          exact walletNN_finalize_withdraw _ _ _ hd
        · simp only [if_neg h2]
          by_cases h3 : o.otype = ORDER_ICH_CREATE
          · simp only [if_pos h3]
            exact hd
          · simp only [if_neg h3]
            exact hd

theorem walletNN_reject_order (st : BotState) (oid : Int) (now : String)
    (hd : walletNN st.wallets) : walletNN (reject_order st oid now).1.wallets := by
  unfold reject_order
  cases hg : get_order st.orders oid with
  | none => exact hd
  | some o =>
    by_cases hs : o.status ≠ STATUS_PENDING
    · simp only [if_pos hs]
      exact hd
    · simp only [if_neg hs]
      by_cases h1 : o.otype = ORDER_WITHDRAW
      · simp only [if_pos h1]
        exact walletNN_release_hold _ _ _ hd
      · simp only [if_neg h1]
        exact hd

/-- Claim C8, amended: In the services variant every ledger operation
(`add_balance`, `reserve_withdraw`, `release_hold`, `finalize_withdraw`) and
the order approve/reject handlers built on them clamp at zero and preserve
the non-negativity of every user's `(balance, hold)`.  The legacy `main.py`
reject/cancel paths, by contrast, subtract from `hold` without clamping and
can drive it negative (see the counterexample). -/
theorem C8_wallet_invariant :
    (∀ doc uid amount, walletNN doc → walletNN (add_balance doc uid amount).2) ∧
    (∀ doc uid amount, walletNN doc → walletNN (reserve_withdraw doc uid amount).2) ∧
    (∀ doc uid amount, walletNN doc → walletNN (release_hold doc uid amount).2) ∧
    (∀ doc uid amount, walletNN doc → walletNN (finalize_withdraw doc uid amount).2) ∧
    (∀ st oid now, walletNN st.wallets → walletNN (approve_order st oid now).1.wallets) ∧
    (∀ st oid now, walletNN st.wallets → walletNN (reject_order st oid now).1.wallets) :=
  ⟨walletNN_add_balance, walletNN_reserve_withdraw, walletNN_release_hold,
    walletNN_finalize_withdraw, walletNN_approve_order, walletNN_reject_order⟩

/-- Witness for C8: crediting a negative amount to an empty wallets document
still yields non-negative fields for the touched user. -/
theorem C8_wallet_invariant_witness :
    0 ≤ (walletGetD (add_balance [] "7" (-3)).2 "7").balance ∧
      0 ≤ (walletGetD (add_balance [] "7" (-3)).2 "7").hold :=
  C8_wallet_invariant.1 [] "7" (-3)
    (fun uid => by simp [walletGetD, List.lookup]) "7"

/-- Claim C8, counterexample: The legacy reject handler (main.py 1885-1891)
adds back the recorded amount and subtracts it from `hold` with no clamping:
from the non-negative wallet `{balance: 0, hold: 0}`, rejecting a pending
withdraw request of amount 5 drives `hold` to `-5 < 0`. -/
theorem C8_counterexample :
    (handle_reject_request
        ⟨[("7", ⟨0, 0, 0⟩)], [("r1", ⟨"7", "withdraw", 5, 0, 0, "pending"⟩)]⟩
        "r1" "9").1.users.lookup "7" = some ⟨5, -5, 0⟩ ∧
    ((-5 : Int) < 0) := by
  refine ⟨by decide, by decide⟩

/-- Claim C7: A second approve / reject / cancel attempt on an order that is no
longer `PENDING` is a no-op in every variant: the handler reports the
not-pending condition and returns the state bit-for-bit unchanged — no order
document change, no wallet change (admin.py 218-222 and 250-254; main.py
1784-1790, 1877-1883, 1470-1478). -/
theorem C7_not_pending_noop :
    (∀ (st : BotState) (oid : Int) (now : String) (o : Order),
      get_order st.orders oid = some o → o.status ≠ STATUS_PENDING →
      approve_order st oid now = (st, .notPending)) ∧
    (∀ (st : BotState) (oid : Int) (now : String) (o : Order),
      get_order st.orders oid = some o → o.status ≠ STATUS_PENDING →
      reject_order st oid now = (st, .notPending)) ∧
    (∀ (st : MainState) (rid aid : String) (req : PendingReq),
      st.pending.lookup rid = some req → req.status ≠ "pending" →
      handle_approve_request st rid aid = (st, .notPending)) ∧
    (∀ (st : MainState) (rid aid : String) (req : PendingReq),
      st.pending.lookup rid = some req → req.status ≠ "pending" →
      handle_reject_request st rid aid = (st, .notPending)) ∧
    (∀ (st : MainState) (rid aid : String) (req : PendingReq),
      st.pending.lookup rid = some req → req.status ≠ "pending" →
      cancel_withdraw_callback st rid aid = (st, .notPending)) := by
  refine ⟨?_, ?_, ?_, ?_, ?_⟩
  · intro st oid now o hg hs
    unfold approve_order
    rw [hg]
    simp [hs]
  · intro st oid now o hg hs
    unfold reject_order
    rw [hg]
    simp [hs]
  · intro st rid aid req hg hs
    unfold handle_approve_request
    rw [hg]
    simp [hs]
  · intro st rid aid req hg hs
    unfold handle_reject_request
    rw [hg]
    simp [hs]
  · intro st rid aid req hg hs
    unfold cancel_withdraw_callback
    rw [hg]
    simp [hs]

/-- Witness for C7: approving, rejecting and cancelling an already-approved
order / request all leave the concrete state untouched. -/
theorem C7_not_pending_noop_witness :
    approve_order ⟨[("7", ⟨10, 0⟩)], ⟨2, [⟨1, "topup", "approved", 7,
        { amount := some 10 }, "t0", "t0"⟩]⟩, []⟩ 1 "t1"
      = (⟨[("7", ⟨10, 0⟩)], ⟨2, [⟨1, "topup", "approved", 7,
        { amount := some 10 }, "t0", "t0"⟩]⟩, []⟩, .notPending) ∧
    cancel_withdraw_callback ⟨[("7", ⟨10, 0, 0⟩)],
        [("r1", ⟨"7", "withdraw", 5, 0, 0, "approved"⟩)]⟩ "r1" "7"
      = (⟨[("7", ⟨10, 0, 0⟩)], [("r1", ⟨"7", "withdraw", 5, 0, 0, "approved"⟩)]⟩,
        .notPending) :=
  ⟨C7_not_pending_noop.1 _ 1 "t1" ⟨1, "topup", "approved", 7,
      { amount := some 10 }, "t0", "t0"⟩ (by decide) (by decide),
   C7_not_pending_noop.2.2.2.2 _ "r1" "7" ⟨"7", "withdraw", 5, 0, 0, "approved"⟩
      (by decide) (by decide)⟩

/-- Claim C6: For a withdraw request the reservation happens at creation time,
before any order exists.  In both variants: if the reservation fails the
state is returned bit-for-bit unchanged (no order, no wallet change) and the
caller is told the funds are insufficient; if it succeeds, the single step
both debits/holds the wallet and appends the new `pending` order
(user.py 158-202 with wallet.py 28-47; main.py 1340-1406). -/
theorem C6_reserve_before_create :
    (∀ (st : BotState) (uid : Int) (text : List Char) (m : Int)
        (receiver : Option String) (now : String) (a b h : Int),
      parse_int text = some a → ¬ a < m → 0 < a →
      walletGetD st.wallets (toString uid) = ⟨b, h⟩ → b < a →
      withdraw_get_amount st uid text m receiver now = (st, .insufficient)) ∧
    (∀ (st : BotState) (uid : Int) (text : List Char) (m : Int)
        (receiver : Option String) (now : String) (a b h : Int),
      parse_int text = some a → ¬ a < m → 0 < a →
      walletGetD st.wallets (toString uid) = ⟨b, h⟩ → ¬ b < a →
      withdraw_get_amount st uid text m receiver now =
        (⟨walletSet st.wallets (toString uid) ⟨max 0 (b - a), max 0 (h + a)⟩,
          ⟨st.orders.next_id + 1, st.orders.orders ++
            [⟨st.orders.next_id, ORDER_WITHDRAW, STATUS_PENDING, uid,
              { amount := some a, receiver_no := receiver }, now, now⟩]⟩,
          st.users⟩, .created st.orders.next_id)) ∧
    (∀ (st : MainState) (uid : String) (amount : Int) (rid : String)
        (user : UserMain),
      st.users.lookup uid = some user → user.balance - user.hold < amount →
      withdraw_confirm_callback st uid amount rid = (st, false)) ∧
    (∀ (st : MainState) (uid : String) (amount : Int) (rid : String)
        (user : UserMain),
      st.users.lookup uid = some user → ¬ user.balance - user.hold < amount →
      withdraw_confirm_callback st uid amount rid =
        (⟨usersMainSet st.users uid
            ⟨user.balance - amount, user.hold + amount, user.eshansy_balance⟩,
          pendingSet st.pending rid ⟨uid, "withdraw", amount, 0, 0, "pending"⟩⟩,
          true)) := by
  refine ⟨?_, ?_, ?_, ?_⟩
  · intro st uid text m receiver now a b h hp hm ha hw hlt
    unfold withdraw_get_amount reserve_withdraw
    rw [hp]
    simp [hm, not_le.mpr ha, hw, hlt]
  · intro st uid text m receiver now a b h hp hm ha hw hge
    unfold withdraw_get_amount reserve_withdraw create_order
    rw [hp]
    simp [hm, not_le.mpr ha, hw, hge]
  · intro st uid amount rid user hu hlt
    unfold withdraw_confirm_callback
    rw [hu]
    simp [hlt]
  · intro st uid amount rid user hu hge
    unfold withdraw_confirm_callback
    rw [hu]
    simp [hge]

/-- Witness for C6: a user with balance 30 asking to withdraw 100 is told
the funds are insufficient and the state is unchanged; the same user asking
for 20 gets the reservation plus a fresh pending order. -/
theorem C6_reserve_before_create_witness :
    withdraw_get_amount ⟨[("7", ⟨30, 0⟩)], ⟨1, []⟩, []⟩ 7
        "100".toList 10 (some "r") "t0" = (⟨[("7", ⟨30, 0⟩)], ⟨1, []⟩, []⟩, .insufficient) ∧
    withdraw_get_amount ⟨[("7", ⟨30, 0⟩)], ⟨1, []⟩, []⟩ 7
        "20".toList 10 (some "r") "t0" =
      (⟨[("7", ⟨10, 20⟩)], ⟨2, [⟨1, ORDER_WITHDRAW, STATUS_PENDING, 7,
          { amount := some 20, receiver_no := some "r" }, "t0", "t0"⟩]⟩, []⟩,
        .created 1) := by
  constructor
  · exact C6_reserve_before_create.1 ⟨[("7", ⟨30, 0⟩)], ⟨1, []⟩, []⟩ 7
      "100".toList 10 (some "r") "t0" 100 30 0 (by decide) (by decide)
      (by decide) (by decide) (by decide)
  · have h := C6_reserve_before_create.2.1 ⟨[("7", ⟨30, 0⟩)], ⟨1, []⟩, []⟩ 7
      "20".toList 10 (some "r") "t0" 20 30 0 (by decide) (by decide)
      (by decide) (by decide) (by decide)
    rw [h]
    decide

/-- Claim C10, counterexample: The edit listener (admin.py 173-216) and
`update_order` (orders.py 44-58) never consult the order's status: editing an
order already in terminal state `APPROVED` replaces its payload amount
(100 → 500) and refreshes `updated_at` ("t0" → "t1"), contradicting the
claim that an edit attempt on a terminal order leaves payload, status and
`updated_at` unchanged. -/
theorem C10_counterexample :
    admin_message_listener_for_edits
        ⟨[], ⟨2, [⟨1, "withdraw", "approved", 7,
          { amount := some 100, receiver_no := some "r" }, "t0", "t0"⟩]⟩, []⟩
        (some 1) "500".toList "t1"
      = (⟨[], ⟨2, [⟨1, "withdraw", "approved", 7,
          { amount := some 500, receiver_no := some "r" }, "t0", "t1"⟩]⟩, []⟩, .done) ∧
    (⟨1, "withdraw", "approved", 7, { amount := some 500, receiver_no := some "r" },
        "t0", "t1"⟩ : Order)
      ≠ ⟨1, "withdraw", "approved", 7, { amount := some 100, receiver_no := some "r" },
        "t0", "t0"⟩ := by
  refine ⟨by decide, by decide⟩

/-- Claim C10, amended: The edit path checks only that the order exists and
that the message parses: for any order of a non-credential type and any
positive parsed amount, the edit replaces the payload's `amount` and
refreshes `updated_at` via `update_order` — regardless of the order's
status; the `PENDING`-only restriction is not enforced anywhere. -/
theorem C10_edit_ignores_status :
    ∀ (st : BotState) (oid : Int) (o : Order) (text : List Char) (now : String)
      (a : Int),
    get_order st.orders oid = some o → o.otype ≠ ORDER_ICH_CREATE →
    parse_int (pyStrip text) = some a → 0 < a →
    admin_message_listener_for_edits st (some oid) text now =
      ({ st with orders := (update_order st.orders oid
          { data := some { o.data with amount := some a } } now).2 }, .done) := by
  intro st oid o text now a hg ho hp ha
  unfold admin_message_listener_for_edits
  simp only [hg, hp, if_neg ho, if_neg (not_le.mpr ha)]

/-- Witness for C10: the same edit applied to a still-pending order. -/
theorem C10_edit_ignores_status_witness :
    admin_message_listener_for_edits
        ⟨[], ⟨2, [⟨1, "withdraw", "pending", 7, { amount := some 100 }, "t0", "t0"⟩]⟩, []⟩
        (some 1) " 500 ".toList "t1"
      = (⟨[], ⟨2, [⟨1, "withdraw", "pending", 7, { amount := some 500 }, "t0", "t1"⟩]⟩,
          []⟩, .done) := by
  have h := C10_edit_ignores_status
    ⟨[], ⟨2, [⟨1, "withdraw", "pending", 7, { amount := some 100 }, "t0", "t0"⟩]⟩, []⟩
    1 ⟨1, "withdraw", "pending", 7, { amount := some 100 }, "t0", "t0"⟩
    " 500 ".toList "t1" 500 (by decide) (by decide) (by decide) (by decide)
  rw [h]
  decide

theorem foldl_serialSchedule (fs : List (Int → Int)) (order : List Nat) :
    ∀ s : RmwState, ((serialSchedule order).foldl (runStep fs) s).doc
      = runSerial fs order s.doc := by
  induction order with
  | nil =>
    intro s
    simp [serialSchedule, runSerial]
  | cons i rest ih =>
    intro s
    have hs : serialSchedule (i :: rest)
        = RmwStep.load i :: RmwStep.store i :: serialSchedule rest := by
      simp [serialSchedule]
    rw [hs]
    simp only [List.foldl_cons]
    have hstore : runStep fs (runStep fs s (.load i)) (.store i)
        = { doc := (fs.getD i id) s.doc,
            regs := fun j => if j = i then none
              else if j = i then some s.doc else s.regs j } := by
      simp [runStep]
    rw [hstore, ih]
    simp [runSerial]

/-- Claim C1, amended: The per-file `asyncio.Lock` makes each individual
`load_data` read and each `atomic_write` write atomic, and any FULLY SERIAL
execution — each task's load immediately followed by its store — produces
exactly the serial composition of the modifications.  The lock is released
between the two halves of `DataManager.save_user`, so this guarantee does
not extend to interleaved schedules (see the counterexample). -/
theorem C1_serial_execution (fs : List (Int → Int)) (order : List Nat)
    (init : Int) :
    runSchedule fs (serialSchedule order) init = runSerial fs order init := by
  unfold runSchedule
  rw [foldl_serialSchedule]

/-- Claim C1, counterexample: Two concurrent read-modify-write operations on
the users document (`+10` and `+5` on a balance, each a
`load_data`-mutate-`atomic_write` cycle as in `DataManager.save_user`,
main.py 224-228) may interleave as load-load-store-store, a schedule the
per-call lock fully permits; starting from 0 the final document is 5, while
BOTH serial orderings of the two operations give 15 — the first update is
lost, so the final document does not equal any serial ordering's result. -/
theorem C1_counterexample :
    scheduleWF 2 lostUpdateSchedule = true ∧
    runSchedule twoIncOps lostUpdateSchedule 0 = 5 ∧
    runSerial twoIncOps [0, 1] 0 = 15 ∧
    runSerial twoIncOps [1, 0] 0 = 15 ∧
    ¬ (runSchedule twoIncOps lostUpdateSchedule 0 = runSerial twoIncOps [0, 1] 0 ∨
       runSchedule twoIncOps lostUpdateSchedule 0 = runSerial twoIncOps [1, 0] 0) := by
  refine ⟨by decide, by decide, by decide, by decide, by decide⟩

/-- Claim C2, counterexample: The action trace of `atomic_write`
(main.py 177-191) contains no flush/fsync of the temporary file (nor of
anything else): the claim's "flushes and syncs that file to stable storage"
step does not exist — the trace is exactly a temp-file write followed by the
atomic rename. -/
theorem C2_counterexample :
    (¬ ∃ a ∈ atomic_write ⟨"data", "users", ".json"⟩ "x", isSyncAction a = true) ∧
    atomic_write ⟨"data", "users", ".json"⟩ "x"
      = [.writeFile ⟨"data", "users", ".tmp"⟩ "x",
         .replaceFile ⟨"data", "users", ".tmp"⟩ ⟨"data", "users", ".json"⟩] := by
  refine ⟨by decide, by decide⟩

/-- Claim C2, amended: `atomic_write` never opens the destination for
writing: it writes the serialized value to `with_suffix('.tmp')` — a
different path in the same directory — and its last action is the atomic
rename of that temp file over the destination.  No flush/fsync to stable
storage is performed, so a reader never sees a partial document, but crash
durability of the freshly renamed content is not established by the code. -/
theorem C2_atomic_write_shape :
    ∀ (p : StorePath) (d : String), p.suffix ≠ ".tmp" →
      (withSuffix p ".tmp").dir = p.dir ∧
      withSuffix p ".tmp" ≠ p ∧
      writesInPlace (atomic_write p d) p = false ∧
      (atomic_write p d).getLast? = some (.replaceFile (withSuffix p ".tmp") p) ∧
      (∀ a ∈ atomic_write p d, isSyncAction a = false) := by
  intro p d hp
  have hne : withSuffix p ".tmp" ≠ p := by
    intro he
    apply hp
    have h2 := congrArg StorePath.suffix he
    simpa [withSuffix] using h2.symm
  refine ⟨rfl, hne, ?_, rfl, ?_⟩
  · simp [writesInPlace, atomic_write, hne]
  · intro a ha
    simp only [atomic_write, List.mem_cons, List.not_mem_nil, or_false] at ha
    rcases ha with rfl | rfl <;> rfl

/-- Witness for C2's amended theorem at the users file. -/
theorem C2_atomic_write_shape_witness :
    (withSuffix ⟨"data", "users", ".json"⟩ ".tmp").dir = "data" ∧
      withSuffix ⟨"data", "users", ".json"⟩ ".tmp" ≠ ⟨"data", "users", ".json"⟩ ∧
      writesInPlace (atomic_write ⟨"data", "users", ".json"⟩ "v")
        ⟨"data", "users", ".json"⟩ = false ∧
      (atomic_write ⟨"data", "users", ".json"⟩ "v").getLast?
        = some (.replaceFile ⟨"data", "users", ".tmp"⟩ ⟨"data", "users", ".json"⟩) ∧
      (∀ a ∈ atomic_write ⟨"data", "users", ".json"⟩ "v", isSyncAction a = false) :=
  C2_atomic_write_shape ⟨"data", "users", ".json"⟩ "v" (by decide)

/-- Claim C3, counterexample: `load_data` (main.py 193-210) installs no
handler around the JSON parse: on an existing record whose content fails to
parse, the exception propagates to the caller (it is NOT recovered), the
corrupt file stays in place unrenamed, no quarantine copy appears, and the
default is not returned. -/
theorem C3_counterexample :
    load_data (fun s => digitsToNat? s.data) 0 ⟨some "x", none⟩
      = (.raised, ⟨some "x", none⟩) ∧
    (LoadOutcome.raised : LoadOutcome Nat) ≠ .ok 0 := by
  refine ⟨by decide, by decide⟩

/-- Claim C3, amended: `load_data` returns the default for an absent file and
for empty content; an existing record that fails to parse makes the call
raise, with the key's on-disk state — corrupt content included — returned
untouched: no quarantine, no reinitialization, no recovery. -/
theorem C3_load_data_behavior :
    (∀ (α : Type) (parse : String → Option α) (d : α) (ks : KeyState)
        (content : String),
      ks.file = some content → content ≠ "" → parse content = none →
      load_data parse d ks = (.raised, ks)) ∧
    (∀ (α : Type) (parse : String → Option α) (d : α) (ks : KeyState),
      ks.file = none → load_data parse d ks = (.ok d, ks)) ∧
    (∀ (α : Type) (parse : String → Option α) (d : α) (ks : KeyState),
      ks.file = some "" → load_data parse d ks = (.ok d, ks)) := by
  refine ⟨?_, ?_, ?_⟩
  · intro α parse d ks content hf hc hp
    unfold load_data
    rw [hf]
    simp [hc, hp]
  · intro α parse d ks hf
    unfold load_data
    rw [hf]
  · intro α parse d ks hf
    unfold load_data
    rw [hf]
    simp

/-- Witness for C3's amended theorem on a concrete corrupt record. -/
theorem C3_load_data_behavior_witness :
    load_data (fun s => digitsToNat? s.data) 5 ⟨some "notjson", some "old"⟩
      = (.raised, ⟨some "notjson", some "old"⟩) :=
  C3_load_data_behavior.1 Nat (fun s => digitsToNat? s.data) 5
    ⟨some "notjson", some "old"⟩ "notjson" rfl (by decide) (by decide)

theorem ratioLe_of_not_lt {x y : RatioVal} (h : ¬ ratioLt x y) : ratioLe y x := by
  unfold ratioLt at h
  unfold ratioLe
  exact not_lt.mp h

theorem smRatioOf_den_pos (a b : List Char) : 0 < (smRatioOf a b).den := by
  unfold smRatioOf
  by_cases h : a.length + b.length = 0
  · simp [h]
  · simp [h]
    omega

theorem ratioLt_trans (x y z : RatioVal) (h1 : ratioLt x y) (h2 : ratioLt y z) :
    ratioLt x z := by
  unfold ratioLt at h1 h2 ⊢
  have hxden : 0 < x.den := by
    rcases Nat.eq_zero_or_pos x.den with h0 | hpos
    · rw [h0, Nat.mul_zero] at h1
      exact absurd h1 (Nat.not_lt_zero _)
    · exact hpos
  have key : x.num * z.den * y.den < z.num * x.den * y.den := by
    calc x.num * z.den * y.den = x.num * y.den * z.den := by ring
    _ ≤ y.num * x.den * z.den := Nat.mul_le_mul_right _ (Nat.le_of_lt h1)
    _ = y.num * z.den * x.den := by ring
    _ < z.num * y.den * x.den := by
        exact Nat.mul_lt_mul_of_lt_of_le h2 (le_refl x.den) hxden
    _ = z.num * x.den * y.den := by ring
  exact lt_of_mul_lt_mul_right key (Nat.zero_le _)

theorem ratioLe_lt_trans (x y z : RatioVal) (hx : 0 < x.den)
    (h1 : ratioLe x y) (h2 : ratioLt y z) : ratioLt x z := by
  unfold ratioLe at h1
  unfold ratioLt at h2 ⊢
  have key : x.num * z.den * y.den < z.num * x.den * y.den := by
    calc x.num * z.den * y.den = x.num * y.den * z.den := by ring
    _ ≤ y.num * x.den * z.den := Nat.mul_le_mul_right _ h1
    _ = y.num * z.den * x.den := by ring
    _ < z.num * y.den * x.den := by
        exact Nat.mul_lt_mul_of_lt_of_le h2 (le_refl x.den) hx
    _ = z.num * x.den * y.den := by ring
  exact lt_of_mul_lt_mul_right key (Nat.zero_le _)

theorem ratio_not_pos_of_le_zero {r : RatioVal} (h : ratioLe r ratioZero) :
    ¬ ratioLt ratioZero r := by
  unfold ratioLe ratioZero at h
  unfold ratioLt ratioZero
  simp only [Nat.mul_one, Nat.zero_mul] at h ⊢
  omega

/-- Characterization of the `best_match` scan: either nothing strictly beat
the starting best and the accumulator survives, or the result is the first
element attaining the maximal ratio among those that beat it. -/
theorem findBestLoop_aux (s : List Char) (l : List (List Char)) :
    ∀ (cur : Option (List Char)) (b : RatioVal),
      (l.foldl (bestStep s) (cur, b) = (cur, b) ∧
        ∀ v ∈ l, ratioLe (smRatioOf s v) b) ∨
      (∃ u pre post, l = pre ++ u :: post ∧
        l.foldl (bestStep s) (cur, b) = (some u, smRatioOf s u) ∧
        ratioLt b (smRatioOf s u) ∧
        (∀ v ∈ pre, ratioLt (smRatioOf s v) (smRatioOf s u)) ∧
        (∀ v ∈ post, ratioLe (smRatioOf s v) (smRatioOf s u))) := by
  induction l with
  | nil =>
    intro cur b
    left
    exact ⟨rfl, by simp⟩
  | cons u rest ih =>
    intro cur b
    by_cases hr : ratioLt b (smRatioOf s u)
    · have hstep : bestStep s (cur, b) u = (some u, smRatioOf s u) := by
        simp [bestStep, hr]
      rcases ih (some u) (smRatioOf s u) with ⟨heq, hall⟩ |
        ⟨u', pre', post', hsplit, heq, hlt, hpre, hpost⟩
      · right
        exact ⟨u, [], rest, by simp,
          by simp only [List.foldl_cons, hstep]; exact heq, hr, by simp, hall⟩
      · right
        refine ⟨u', u :: pre', post', by simp [hsplit], ?_, ?_, ?_, hpost⟩
        · simp only [List.foldl_cons, hstep]
          exact heq
        · exact ratioLt_trans _ _ _ hr hlt
        · intro v hv
          rcases List.mem_cons.mp hv with rfl | hv
          · exact hlt
          · exact hpre v hv
    · have hstep : bestStep s (cur, b) u = (cur, b) := by
        simp [bestStep, hr]
      have hle : ratioLe (smRatioOf s u) b := ratioLe_of_not_lt hr
      rcases ih cur b with ⟨heq, hall⟩ |
        ⟨u', pre', post', hsplit, heq, hlt, hpre, hpost⟩
      · left
        refine ⟨by simp only [List.foldl_cons, hstep]; exact heq, ?_⟩
        intro v hv
        rcases List.mem_cons.mp hv with rfl | hv
        · exact hle
        · exact hall v hv
      · right
        refine ⟨u', u :: pre', post', by simp [hsplit],
          by simp only [List.foldl_cons, hstep]; exact heq, hlt, ?_, hpost⟩
        intro v hv
        rcases List.mem_cons.mp hv with rfl | hv
        · exact ratioLe_lt_trans _ _ _ (smRatioOf_den_pos s v) hle hlt
        · exact hpre v hv

set_option maxRecDepth 600000 in
/-- Claim C9, counterexample: The scan of main.py 621-629 has no similarity
threshold: any strictly positive ratio beats the starting `best_ratio = 0`.
Against the single available username `"qqqa"`, the request `"a"` has
similarity `2/5 = 0.4`, which does NOT clear the spec's fixed threshold
(`0.55`); the spec-modelled `findBestMatch` therefore returns null, but the
code returns `"qqqa"` — so "returns null whenever no available username's
similarity clears the fixed threshold" is false of the code. -/
theorem C9_counterexample :
    eshansy_best_match "a".toList [("qqqa".toList, none)] = some "qqqa".toList ∧
    specBestMatch "a".toList [("qqqa".toList, none)] = none ∧
    smRatioOf "a".toList "qqqa".toList = ⟨2, 5⟩ ∧
    ¬ ratioLe ⟨11, 20⟩ ⟨2, 5⟩ := by
  refine ⟨by decide, by decide, by decide, by decide⟩

set_option maxRecDepth 600000 in
/-- Claim C9, amended: The matcher returns null exactly when no available
username has strictly positive similarity to the stripped-and-lowercased
input (the effective threshold is "similarity > 0", not a fixed cutoff such
as the spec's 0.55); otherwise it returns the first username in stored order
attaining the maximal similarity — every earlier candidate is strictly
worse, every later one no better.  The spec's two concrete scenarios hold:
`"john"` against `["johnny77", "alice"]` gives `"johnny77"` and against
`["zzz"]` gives null. -/
theorem C9_matcher_behavior :
    (∀ (text : List Char) (accounts : AccountsDoc),
      eshansy_best_match text accounts = none ↔
        ∀ u ∈ availableUsernames accounts,
          ¬ ratioLt ratioZero (smRatioOf (pyLower (pyStrip text)) u)) ∧
    (∀ (text : List Char) (accounts : AccountsDoc) (u : List Char),
      eshansy_best_match text accounts = some u →
        ∃ pre post, availableUsernames accounts = pre ++ u :: post ∧
          ratioLt ratioZero (smRatioOf (pyLower (pyStrip text)) u) ∧
          (∀ v ∈ pre, ratioLt (smRatioOf (pyLower (pyStrip text)) v)
            (smRatioOf (pyLower (pyStrip text)) u)) ∧
          (∀ v ∈ post, ratioLe (smRatioOf (pyLower (pyStrip text)) v)
            (smRatioOf (pyLower (pyStrip text)) u))) ∧
    eshansy_best_match "john".toList
      [("johnny77".toList, none), ("alice".toList, none)]
        = some "johnny77".toList ∧
    eshansy_best_match "john".toList [("zzz".toList, none)] = none := by
  refine ⟨?_, ?_, by decide, by decide⟩
  · intro text accounts
    unfold eshansy_best_match findBestLoop
    by_cases hemp : (availableUsernames accounts).isEmpty = true
    · rw [if_pos hemp]
      have hnil : availableUsernames accounts = [] := List.isEmpty_iff.mp hemp
      simp [hnil]
    · rw [if_neg hemp]
      rcases findBestLoop_aux (pyLower (pyStrip text))
          (availableUsernames accounts) none ratioZero with
        ⟨heq, hall⟩ | ⟨u, pre, post, hsplit, heq, hlt, _, _⟩
      · rw [heq]
        constructor
        · intro _ u hu
          exact ratio_not_pos_of_le_zero (hall u hu)
        · intro _
          rfl
      · rw [heq]
        constructor
        · intro h
          simp at h
        · intro hforall
          exact absurd hlt (hforall u (by rw [hsplit]; simp))
  · intro text accounts u hu
    unfold eshansy_best_match findBestLoop at hu
    by_cases hemp : (availableUsernames accounts).isEmpty = true
    · rw [if_pos hemp] at hu
      exact absurd hu.symm (Option.some_ne_none u)
    · rw [if_neg hemp] at hu
      rcases findBestLoop_aux (pyLower (pyStrip text))
          (availableUsernames accounts) none ratioZero with
        ⟨heq, _⟩ | ⟨u', pre, post, hsplit, heq, hlt, hpre, hpost⟩
      · rw [heq] at hu
        simp at hu
      · rw [heq] at hu
        have : u' = u := by simpa using hu
        subst this
        exact ⟨pre, post, hsplit, hlt, hpre, hpost⟩

set_option maxRecDepth 600000 in
/-- Witness for C9's amended theorem: the returned match for `"john"` is the
first maximal-similarity available username. -/
theorem C9_matcher_behavior_witness :
    ∃ pre post,
      availableUsernames [("johnny77".toList, none), ("alice".toList, none)]
        = pre ++ "johnny77".toList :: post ∧
      ratioLt ratioZero (smRatioOf (pyLower (pyStrip "john".toList))
        "johnny77".toList) ∧
      (∀ v ∈ pre, ratioLt (smRatioOf (pyLower (pyStrip "john".toList)) v)
        (smRatioOf (pyLower (pyStrip "john".toList)) "johnny77".toList)) ∧
      (∀ v ∈ post, ratioLe (smRatioOf (pyLower (pyStrip "john".toList)) v)
        (smRatioOf (pyLower (pyStrip "john".toList)) "johnny77".toList)) :=
  C9_matcher_behavior.2.1 "john".toList
    [("johnny77".toList, none), ("alice".toList, none)]
    "johnny77".toList (by decide)

end Sleman
